import Mathlib

/-!
Shallow embedding of the `circuitbreaker` Go package (manager-based API,
files `circuitbreaker.go` and `circuitbreaker_core.go`).

Modelling conventions:
* Go `int` is modelled as `Int`; Go `time.Duration` and `time.Time` as `Int`
  nanoseconds.  `time.Now()` becomes an explicit `now : Int` argument,
  `time.Since(t)` becomes `now - t`.
* `rand.IntN(100)` becomes an explicit sample argument `r : Int`; the real
  generator always yields a value in `[0, 100)`, which theorems take as a
  hypothesis where it matters.
* The `sync.RWMutex` discipline makes each operation atomic, so the
  sequential embedding applies each operation as a whole-state function.
  The double-checked re-validation inside `allow()` is kept literally: in
  the sequential model the re-read state equals the snapshot.
* The registry map `map[string]*circuitBreaker` is an association list with
  overwrite-on-insert, matching Go map assignment; pointer mutation of a
  breaker becomes re-inserting the updated breaker under its key.
-/

namespace CircuitBreaker

/-- Go `type State uint8` with its four constants. -/
inductive State where
  | stateClosed
  | stateOpen
  | stateHalfOpen
  | notConfigured
  deriving DecidableEq, Repr

open State

/-- Go `CircuitBreakerConf` (yaml-tagged config struct). -/
structure CircuitBreakerConf where
  FailureThreshold : Int
  RecoveryTimeout : Int
  SuccessThreshold : Int
  HalfOpenPrc : Int
  deriving DecidableEq, Repr

/-- Go `circuitBreaker` struct (the mutex is the atomicity of the model). -/
structure circuitBreaker where
  state : State
  failureCount : Int
  failureThreshold : Int
  recoveryTimeout : Int
  lastFailureTime : Int
  successCount : Int
  successThreshold : Int
  name : String
  halfOpenPrc : Int
  transaction : Int
  deriving DecidableEq, Repr

/-- `30 * time.Second` in nanoseconds. -/
def thirtySeconds : Int := 30 * 1000000000

/-- Go `func new(name string, config CircuitBreakerConf) (*circuitBreaker, error)`:
returns an error for an empty name, otherwise normalizes the config fields
and builds a fresh breaker in `stateClosed`. -/
def new (name : String) (config : CircuitBreakerConf) :
    Except String circuitBreaker :=
  if name = "" then
    .error "circuit breaker name cannot be empty"
  else
    let successThreshold :=
      if config.SuccessThreshold ≤ 0 then 3 else config.SuccessThreshold
    let recoveryTimeout :=
      if config.RecoveryTimeout ≤ 0 then thirtySeconds
      else config.RecoveryTimeout
    let failureThreshold :=
      if config.FailureThreshold ≤ 0 then 5 else config.FailureThreshold
    let halfOpenPrc :=
      if config.HalfOpenPrc ≤ 0 then 20
      else if config.HalfOpenPrc > 100 then 100
      else config.HalfOpenPrc
    .ok { state := stateClosed
          failureCount := 0
          failureThreshold := failureThreshold
          recoveryTimeout := recoveryTimeout
          lastFailureTime := 0
          successCount := 0
          successThreshold := successThreshold
          name := name
          halfOpenPrc := halfOpenPrc
          transaction := 0 }

/-- Go `func (cb *circuitBreaker) allow() (bool, State)`.
`now` is the value of `time.Now()`, `r` the value of `rand.IntN(100)`.
Returns the permission bit, the observed state, and the breaker after the
call (the Go code mutates `cb` in place). -/
def allow (cb : circuitBreaker) (now : Int) (r : Int) :
    Bool × State × circuitBreaker :=
  match cb.state with
  | stateClosed => (true, cb.state, cb)
  | stateHalfOpen => (decide (r < cb.halfOpenPrc), cb.state, cb)
  | stateOpen =>
    if now - cb.lastFailureTime ≥ cb.recoveryTimeout then
      -- double-checked re-validation under the write lock
      let cb' :=
        if cb.state = stateOpen ∧ now - cb.lastFailureTime ≥ cb.recoveryTimeout
        then { cb with state := stateHalfOpen }
        else cb
      (decide (r < cb.halfOpenPrc), stateHalfOpen, cb')
    else
      (false, cb.state, cb)
  | notConfigured => (false, cb.state, cb)

/-- Go `func (cb *circuitBreaker) success()`. -/
def success (cb : circuitBreaker) : circuitBreaker :=
  match cb.state with
  | stateClosed =>
    if cb.failureCount > 0 then
      { cb with failureCount := cb.failureCount - 1 }
    else cb
  | stateHalfOpen =>
    let successCount := cb.successCount + 1
    if successCount ≥ cb.successThreshold then
      { cb with state := stateClosed
                failureCount := 0
                successCount := 0
                transaction := cb.transaction + 1 }
    else { cb with successCount := successCount }
  | _ => cb

/-- Go `func (cb *circuitBreaker) failure()`; `now` is `time.Now()`. -/
def failure (cb : circuitBreaker) (now : Int) : circuitBreaker :=
  match cb.state with
  | stateClosed =>
    let failureCount := cb.failureCount + 1
    if failureCount ≥ cb.failureThreshold then
      { cb with failureCount := failureCount
                state := stateOpen
                lastFailureTime := now
                transaction := cb.transaction + 1 }
    else { cb with failureCount := failureCount }
  | stateHalfOpen =>
    { cb with state := stateOpen
              lastFailureTime := now
              successCount := 0 }
  | _ => cb

/-- Go `func (cb *circuitBreaker) curState() State`. -/
def curState (cb : circuitBreaker) : State := cb.state

/-- Go `func (s State) String() string`. -/
def State.toText : State → String
  | stateClosed => "closed"
  | stateOpen => "open"
  | stateHalfOpen => "half-open"
  | notConfigured => "not configured"

/-- The registry `map[string]*circuitBreaker`, as an association list. -/
def Registry := List (String × circuitBreaker)

/-- Go map read `m.breakers[srv]` (missing key yields the nil pointer,
modelled as `none`). -/
def Registry.lookup : Registry → String → Option circuitBreaker
  | [], _ => none
  | (k, v) :: rest, key => if k = key then some v else Registry.lookup rest key

/-- Go map assignment `m.breakers[srv] = cb`: overwrite if the key is
present, otherwise add a binding. -/
def Registry.insert : Registry → String → circuitBreaker → Registry
  | [], key, cb => [(key, cb)]
  | (k, v) :: rest, key, cb =>
    if k = key then (key, cb) :: rest
    else (k, v) :: Registry.insert rest key cb

/-- Loop body of `InitCircuitBreakers`: `cb, err := new(srv, cfg)`; on
failure append the error and `continue`, otherwise `m.breakers[srv] = cb`.
The accumulator is the pair (registry, collected errors). -/
def initStep (cfg : CircuitBreakerConf) (acc : Registry × List String)
    (srv : String) : Registry × List String :=
  match new srv cfg with
  | .error e => (acc.1, acc.2 ++ [e])
  | .ok cb => (Registry.insert acc.1 srv cb, acc.2)

/-- Go `func (m *CBManager) InitCircuitBreakers(servers []string, cfg
CircuitBreakerConf) (cbInitErr []error)`: one pass over `servers`,
collecting construction errors and assigning every successfully built
breaker into the existing map.  Returns the updated registry together with
the collected error messages. -/
def InitCircuitBreakers (m : Registry) (servers : List String)
    (cfg : CircuitBreakerConf) : Registry × List String :=
  servers.foldl (initStep cfg) (m, [])

/-- Go `func (m *CBManager) GetCircuitBreaker(serverURL string)
*circuitBreaker`. -/
def GetCircuitBreaker (m : Registry) (serverURL : String) :
    Option circuitBreaker :=
  Registry.lookup m serverURL

/-- Go `func (m *CBManager) AllowRequest(serverURL string) (bool, State)`:
a nil breaker fails open with `notConfigured`; otherwise delegates to
`allow`, whose in-place mutation becomes re-inserting the updated breaker. -/
def AllowRequest (m : Registry) (serverURL : String) (now : Int) (r : Int) :
    Bool × State × Registry :=
  match GetCircuitBreaker m serverURL with
  | none => (true, notConfigured, m)
  | some cb =>
    let res := allow cb now r
    (res.1, res.2.1, Registry.insert m serverURL res.2.2)

/-- Go `func (m *CBManager) ReportSuccess(serverURL string)`. -/
def ReportSuccess (m : Registry) (serverURL : String) : Registry :=
  match GetCircuitBreaker m serverURL with
  | none => m
  | some cb => Registry.insert m serverURL (success cb)

/-- Go `func (m *CBManager) ReportFailure(serverURL string)`. -/
def ReportFailure (m : Registry) (serverURL : String) (now : Int) : Registry :=
  match GetCircuitBreaker m serverURL with
  | none => m
  | some cb => Registry.insert m serverURL (failure cb now)

/-- Go `func (m *CBManager) GetCircuitBreakerState(serverURL string)
string`. -/
def GetCircuitBreakerState (m : Registry) (serverURL : String) : String :=
  match GetCircuitBreaker m serverURL with
  | none => "disabled"
  | some cb => (curState cb).toText

/-- One observable operation on a single breaker, with the ambient inputs
(`time.Now()`, `rand.IntN(100)`) made explicit. -/
inductive Op where
  | allowOp (now : Int) (r : Int)
  | successOp
  | failureOp (now : Int)
  deriving DecidableEq, Repr

/-- Apply one operation to a breaker, keeping only the breaker it leaves
behind. -/
def applyOp (cb : circuitBreaker) : Op → circuitBreaker
  | .allowOp now r => (allow cb now r).2.2
  | .successOp => success cb
  | .failureOp now => failure cb now

/-- Run a finite sequence of operations. -/
def runOps (cb : circuitBreaker) (ops : List Op) : circuitBreaker :=
  ops.foldl applyOp cb

/-- The state invariant of a live breaker (claim C5). -/
def Inv (cb : circuitBreaker) : Prop :=
  0 ≤ cb.failureCount ∧ 0 ≤ cb.successCount ∧
    cb.state ≠ notConfigured ∧ 1 ≤ cb.halfOpenPrc ∧ cb.halfOpenPrc ≤ 100

instance (cb : circuitBreaker) : Decidable (Inv cb) := by
  unfold Inv; infer_instance

/-! Concrete values used by witnesses and counterexamples. -/

/-- A sample in-range configuration. -/
def demoCfg : CircuitBreakerConf :=
  { FailureThreshold := 5
    RecoveryTimeout := 1000
    SuccessThreshold := 3
    HalfOpenPrc := 50 }

/-- The breaker `new "old" demoCfg` constructs (checked by `rfl` below). -/
def demoBreaker : circuitBreaker :=
  { state := State.stateClosed
    failureCount := 0
    failureThreshold := 5
    recoveryTimeout := 1000
    lastFailureTime := 0
    successCount := 0
    successThreshold := 3
    name := "old"
    halfOpenPrc := 50
    transaction := 0 }

/-- The breaker `new "new" demoCfg` constructs. -/
def demoBreakerNew : circuitBreaker :=
  { demoBreaker with name := "new" }

/-! Basic lemmas about the registry. -/

theorem lookup_insert_self (r : Registry) (k : String) (v : circuitBreaker) :
    Registry.lookup (Registry.insert r k v) k = some v := by
  induction r with
  | nil => simp [Registry.insert, Registry.lookup]
  | cons hd tl ih =>
    obtain ⟨k', v'⟩ := hd
    by_cases h : k' = k
    · simp [Registry.insert, Registry.lookup, h]
    · simp [Registry.insert, Registry.lookup, h, ih]

theorem lookup_insert_ne (r : Registry) (k : String) (v : circuitBreaker)
    (key : String) (h : k ≠ key) :
    Registry.lookup (Registry.insert r k v) key = Registry.lookup r key := by
  induction r with
  | nil => simp [Registry.insert, Registry.lookup, h]
  | cons hd tl ih =>
    obtain ⟨k', v'⟩ := hd
    by_cases h' : k' = k
    · subst h'
      simp [Registry.insert, Registry.lookup, h]
    · simp [Registry.insert, Registry.lookup, h', ih]

/-! Lemmas about construction. -/

theorem new_empty (cfg : CircuitBreakerConf) :
    new "" cfg = .error "circuit breaker name cannot be empty" := by
  simp [new]

theorem new_ok_of_ne (name : String) (cfg : CircuitBreakerConf)
    (h : name ≠ "") :
    new name cfg =
      .ok { state := State.stateClosed
            failureCount := 0
            failureThreshold :=
              if cfg.FailureThreshold ≤ 0 then 5 else cfg.FailureThreshold
            recoveryTimeout :=
              if cfg.RecoveryTimeout ≤ 0 then thirtySeconds
              else cfg.RecoveryTimeout
            lastFailureTime := 0
            successCount := 0
            successThreshold :=
              if cfg.SuccessThreshold ≤ 0 then 3 else cfg.SuccessThreshold
            name := name
            halfOpenPrc :=
              if cfg.HalfOpenPrc ≤ 0 then 20
              else if cfg.HalfOpenPrc > 100 then 100
              else cfg.HalfOpenPrc
            transaction := 0 } := by
  simp [new, h]

theorem new_ok_inv (name : String) (cfg : CircuitBreakerConf)
    (b : circuitBreaker) (h : new name cfg = .ok b) : Inv b := by
  by_cases hn : name = ""
  · subst hn
    simp [new_empty] at h
  · rw [new_ok_of_ne name cfg hn] at h
    injection h with h
    subst h
    refine ⟨le_refl 0, le_refl 0, by simp, ?_, ?_⟩ <;>
      dsimp only <;> split <;> omega

/-! Per-operation frame and invariant lemmas. -/

theorem allow_fields (cb : circuitBreaker) (now r : Int) :
    (allow cb now r).2.2.failureCount = cb.failureCount ∧
    (allow cb now r).2.2.successCount = cb.successCount ∧
    (allow cb now r).2.2.transaction = cb.transaction ∧
    (allow cb now r).2.2.lastFailureTime = cb.lastFailureTime ∧
    (allow cb now r).2.2.failureThreshold = cb.failureThreshold ∧
    (allow cb now r).2.2.recoveryTimeout = cb.recoveryTimeout ∧
    (allow cb now r).2.2.successThreshold = cb.successThreshold ∧
    (allow cb now r).2.2.halfOpenPrc = cb.halfOpenPrc ∧
    (allow cb now r).2.2.name = cb.name := by
  cases h : cb.state <;> simp [allow, h] <;> split <;> simp

theorem allow_state (cb : circuitBreaker) (now r : Int) :
    (allow cb now r).2.2.state = cb.state ∨
      (cb.state = State.stateOpen ∧
        (allow cb now r).2.2.state = State.stateHalfOpen) := by
  cases h : cb.state <;> simp [allow, h] <;> split <;> simp [h]

theorem success_closed_dec (cb : circuitBreaker)
    (hs : cb.state = State.stateClosed) (hf : cb.failureCount > 0) :
    success cb = { cb with failureCount := cb.failureCount - 1 } := by
  simp [success, hs, hf]

theorem success_closed_zero (cb : circuitBreaker)
    (hs : cb.state = State.stateClosed) (hf : ¬cb.failureCount > 0) :
    success cb = cb := by
  simp [success, hs, hf]

theorem success_halfOpen_close (cb : circuitBreaker)
    (hs : cb.state = State.stateHalfOpen)
    (hc : cb.successCount + 1 ≥ cb.successThreshold) :
    success cb = { cb with state := State.stateClosed
                           failureCount := 0
                           successCount := 0
                           transaction := cb.transaction + 1 } := by
  simp [success, hs, hc]

theorem success_halfOpen_inc (cb : circuitBreaker)
    (hs : cb.state = State.stateHalfOpen)
    (hc : ¬cb.successCount + 1 ≥ cb.successThreshold) :
    success cb = { cb with successCount := cb.successCount + 1 } := by
  simp [success, hs, hc]

theorem success_open (cb : circuitBreaker)
    (hs : cb.state = State.stateOpen) : success cb = cb := by
  simp [success, hs]

theorem failure_closed_trip (cb : circuitBreaker) (now : Int)
    (hs : cb.state = State.stateClosed)
    (hc : cb.failureCount + 1 ≥ cb.failureThreshold) :
    failure cb now = { cb with failureCount := cb.failureCount + 1
                               state := State.stateOpen
                               lastFailureTime := now
                               transaction := cb.transaction + 1 } := by
  simp [failure, hs, hc]

theorem failure_closed_inc (cb : circuitBreaker) (now : Int)
    (hs : cb.state = State.stateClosed)
    (hc : ¬cb.failureCount + 1 ≥ cb.failureThreshold) :
    failure cb now = { cb with failureCount := cb.failureCount + 1 } := by
  simp [failure, hs, hc]

theorem failure_halfOpen (cb : circuitBreaker) (now : Int)
    (hs : cb.state = State.stateHalfOpen) :
    failure cb now = { cb with state := State.stateOpen
                               lastFailureTime := now
                               successCount := 0 } := by
  simp [failure, hs]

theorem failure_open (cb : circuitBreaker) (now : Int)
    (hs : cb.state = State.stateOpen) : failure cb now = cb := by
  simp [failure, hs]

theorem inv_success (cb : circuitBreaker) (h : Inv cb) : Inv (success cb) := by
  obtain ⟨h1, h2, h3, h4, h5⟩ := h
  cases hs : cb.state
  case stateClosed =>
    by_cases hf : cb.failureCount > 0
    · rw [success_closed_dec cb hs hf]
      exact ⟨by dsimp only; omega, h2, h3, h4, h5⟩
    · rw [success_closed_zero cb hs hf]
      exact ⟨h1, h2, h3, h4, h5⟩
  case stateHalfOpen =>
    by_cases hc : cb.successCount + 1 ≥ cb.successThreshold
    · rw [success_halfOpen_close cb hs hc]
      exact ⟨le_refl 0, le_refl 0, by simp, h4, h5⟩
    · rw [success_halfOpen_inc cb hs hc]
      exact ⟨h1, by dsimp only; omega, h3, h4, h5⟩
  case stateOpen =>
    rw [success_open cb hs]
    exact ⟨h1, h2, h3, h4, h5⟩
  case notConfigured => exact absurd hs h3

theorem inv_failure (cb : circuitBreaker) (now : Int) (h : Inv cb) :
    Inv (failure cb now) := by
  obtain ⟨h1, h2, h3, h4, h5⟩ := h
  cases hs : cb.state
  case stateClosed =>
    by_cases hc : cb.failureCount + 1 ≥ cb.failureThreshold
    · rw [failure_closed_trip cb now hs hc]
      exact ⟨by dsimp only; omega, h2, by simp, h4, h5⟩
    · rw [failure_closed_inc cb now hs hc]
      exact ⟨by dsimp only; omega, h2, h3, h4, h5⟩
  case stateHalfOpen =>
    rw [failure_halfOpen cb now hs]
    exact ⟨h1, le_refl 0, by simp, h4, h5⟩
  case stateOpen =>
    rw [failure_open cb now hs]
    exact ⟨h1, h2, h3, h4, h5⟩
  case notConfigured => exact absurd hs h3

theorem inv_allow (cb : circuitBreaker) (now r : Int) (h : Inv cb) :
    Inv ((allow cb now r).2.2) := by
  obtain ⟨h1, h2, h3, h4, h5⟩ := h
  obtain ⟨f1, f2, _, _, _, _, _, f8, _⟩ := allow_fields cb now r
  refine ⟨f1 ▸ h1, f2 ▸ h2, ?_, f8 ▸ h4, f8 ▸ h5⟩
  rcases allow_state cb now r with hst | ⟨_, hst⟩ <;> rw [hst]
  · exact h3
  · simp

theorem inv_applyOp (cb : circuitBreaker) (op : Op) (h : Inv cb) :
    Inv (applyOp cb op) := by
  cases op with
  | allowOp now r => exact inv_allow cb now r h
  | successOp => exact inv_success cb h
  | failureOp now => exact inv_failure cb now h

theorem inv_runOps (cb : circuitBreaker) (ops : List Op) (h : Inv cb) :
    Inv (runOps cb ops) := by
  induction ops generalizing cb with
  | nil => exact h
  | cons op rest ih => exact ih (applyOp cb op) (inv_applyOp cb op h)

theorem transaction_mono (cb : circuitBreaker) (op : Op) :
    cb.transaction ≤ (applyOp cb op).transaction := by
  cases op with
  | allowOp now r =>
    have := (allow_fields cb now r).2.2.1
    simp [applyOp, this]
  | successOp =>
    cases hs : cb.state
    case stateClosed =>
      by_cases hf : cb.failureCount > 0
      · rw [applyOp, success_closed_dec cb hs hf]
      · rw [applyOp, success_closed_zero cb hs hf]
    case stateHalfOpen =>
      by_cases hc : cb.successCount + 1 ≥ cb.successThreshold
      · rw [applyOp, success_halfOpen_close cb hs hc]; dsimp only; omega
      · rw [applyOp, success_halfOpen_inc cb hs hc]
    case stateOpen => rw [applyOp, success_open cb hs]
    case notConfigured => simp [applyOp, success, hs]
  | failureOp now =>
    cases hs : cb.state
    case stateClosed =>
      by_cases hc : cb.failureCount + 1 ≥ cb.failureThreshold
      · rw [applyOp, failure_closed_trip cb now hs hc]; dsimp only; omega
      · rw [applyOp, failure_closed_inc cb now hs hc]
    case stateHalfOpen => rw [applyOp, failure_halfOpen cb now hs]
    case stateOpen => rw [applyOp, failure_open cb now hs]
    case notConfigured => simp [applyOp, failure, hs]

theorem new_demo : new "old" demoCfg = .ok demoBreaker := by rfl

theorem new_demo_new : new "new" demoCfg = .ok demoBreakerNew := by rfl

/-! Claim theorems. -/

/-- C2: `allow()` obeys the per-state policy: Closed is always permitted
with observed state Closed; HalfOpen is permitted iff the sample drawn in
`[0,100)` is below `halfOpenPrc`, observed state HalfOpen, breaker
unchanged; Open before the recovery timeout is denied with observed state
Open and no change; Open at or past the timeout moves the breaker to
HalfOpen, reports HalfOpen, and is permitted iff the sample is below
`halfOpenPrc`. -/
theorem C2_allow_policy (cb : circuitBreaker) (now r : Int)
    (hr0 : 0 ≤ r) (hr100 : r < 100) :
    (cb.state = State.stateClosed →
      allow cb now r = (true, State.stateClosed, cb)) ∧
    (cb.state = State.stateHalfOpen →
      allow cb now r = (decide (r < cb.halfOpenPrc), State.stateHalfOpen, cb)) ∧
    (cb.state = State.stateOpen →
      now - cb.lastFailureTime < cb.recoveryTimeout →
      allow cb now r = (false, State.stateOpen, cb)) ∧
    (cb.state = State.stateOpen →
      cb.recoveryTimeout ≤ now - cb.lastFailureTime →
      allow cb now r =
        (decide (r < cb.halfOpenPrc), State.stateHalfOpen,
          { cb with state := State.stateHalfOpen })) := by
  refine ⟨?_, ?_, ?_, ?_⟩
  · intro h; simp [allow, h]
  · intro h; simp [allow, h]
  · intro h hlt
    simp [allow, h, if_neg (not_le.mpr hlt)]
  · intro h hge
    simp [allow, h, hge]

/-- Witness for C2 at a concrete breaker in each reachable situation. -/
theorem C2_allow_policy_witness :
    allow demoBreaker 5 7 = (true, State.stateClosed, demoBreaker) :=
  (C2_allow_policy demoBreaker 5 7 (by decide) (by decide)).1 rfl

/-- C3: `failure()` in Closed increments `failureCount` and trips to Open
(recording `lastFailureTime = now` and bumping `transaction`) exactly when
the incremented count reaches `failureThreshold`; in HalfOpen it
unconditionally returns to Open, records `lastFailureTime = now` and zeroes
`successCount` without touching `transaction`; in Open it is a no-op. -/
theorem C3_failure_effect (cb : circuitBreaker) (now : Int) :
    (cb.state = State.stateClosed →
      (cb.failureCount + 1 ≥ cb.failureThreshold →
        failure cb now = { cb with failureCount := cb.failureCount + 1
                                   state := State.stateOpen
                                   lastFailureTime := now
                                   transaction := cb.transaction + 1 }) ∧
      (cb.failureCount + 1 < cb.failureThreshold →
        failure cb now = { cb with failureCount := cb.failureCount + 1 })) ∧
    (cb.state = State.stateHalfOpen →
      failure cb now = { cb with state := State.stateOpen
                                 lastFailureTime := now
                                 successCount := 0 }) ∧
    (cb.state = State.stateOpen → failure cb now = cb) := by
  refine ⟨fun hs => ⟨fun hc => ?_, fun hc => ?_⟩, fun hs => ?_, fun hs => ?_⟩
  · exact failure_closed_trip cb now hs hc
  · exact failure_closed_inc cb now hs (by omega)
  · exact failure_halfOpen cb now hs
  · exact failure_open cb now hs

/-- Witness for C3: one failure on a fresh breaker with threshold 5 only
increments the counter. -/
theorem C3_failure_effect_witness :
    failure demoBreaker 42 = { demoBreaker with failureCount := 1 } :=
  ((C3_failure_effect demoBreaker 42).1 rfl).2 (by decide)

/-- C4: `success()` in Closed decrements `failureCount` when it is
positive and otherwise leaves the breaker unchanged (the counter is never
driven below 0); in HalfOpen it increments `successCount` and closes the
breaker (zeroing both counters, bumping `transaction`) exactly when the
incremented count reaches `successThreshold`; in Open it is a no-op. -/
theorem C4_success_effect (cb : circuitBreaker) :
    (cb.state = State.stateClosed →
      (cb.failureCount > 0 →
        success cb = { cb with failureCount := cb.failureCount - 1 }) ∧
      (cb.failureCount ≤ 0 → success cb = cb)) ∧
    (cb.state = State.stateHalfOpen →
      (cb.successCount + 1 ≥ cb.successThreshold →
        success cb = { cb with state := State.stateClosed
                               failureCount := 0
                               successCount := 0
                               transaction := cb.transaction + 1 }) ∧
      (cb.successCount + 1 < cb.successThreshold →
        success cb = { cb with successCount := cb.successCount + 1 })) ∧
    (cb.state = State.stateOpen → success cb = cb) := by
  refine ⟨fun hs => ⟨fun hc => ?_, fun hc => ?_⟩,
          fun hs => ⟨fun hc => ?_, fun hc => ?_⟩, fun hs => ?_⟩
  · exact success_closed_dec cb hs hc
  · exact success_closed_zero cb hs (by omega)
  · exact success_halfOpen_close cb hs hc
  · exact success_halfOpen_inc cb hs (by omega)
  · exact success_open cb hs

/-- Witness for C4: a success on a fresh breaker with `failureCount = 0`
is a no-op. -/
theorem C4_success_effect_witness : success demoBreaker = demoBreaker :=
  ((C4_success_effect demoBreaker).1 rfl).2 (by decide)

/-- C6: construction fails exactly on the empty name; any non-empty name
yields a breaker in state Closed with all counters zero. -/
theorem C6_construction (name : String) (cfg : CircuitBreakerConf) :
    (name = "" →
      new name cfg = .error "circuit breaker name cannot be empty") ∧
    (name ≠ "" → ∃ b, new name cfg = .ok b ∧
      b.state = State.stateClosed ∧ b.failureCount = 0 ∧
      b.successCount = 0 ∧ b.transaction = 0) := by
  constructor
  · intro h; subst h; exact new_empty cfg
  · intro h
    exact ⟨_, new_ok_of_ne name cfg h, rfl, rfl, rfl, rfl⟩

/-- Witness for C6 at the empty and a non-empty name. -/
theorem C6_construction_witness :
    new "" demoCfg = .error "circuit breaker name cannot be empty" ∧
    ((new "x" demoCfg).toOption.getD demoBreaker).state =
      State.stateClosed ∧
    ((new "x" demoCfg).toOption.getD demoBreaker).failureCount = 0 ∧
    ((new "x" demoCfg).toOption.getD demoBreaker).successCount = 0 ∧
    ((new "x" demoCfg).toOption.getD demoBreaker).transaction = 0 := by
  obtain ⟨b, hb, h1, h2, h3, h4⟩ := (C6_construction "x" demoCfg).2 (by decide)
  have hb' : (new "x" demoCfg).toOption.getD demoBreaker = b := by
    rw [hb]; rfl
  refine ⟨(C6_construction "" demoCfg).1 rfl, ?_, ?_, ?_, ?_⟩ <;> rw [hb']
  · exact h1
  · exact h2
  · exact h3
  · exact h4

/-- C7: construction normalizes each config field independently:
non-positive `FailureThreshold`, `RecoveryTimeout`, `SuccessThreshold` and
`HalfOpenPrc` become 5, 30s, 3 and 20 respectively, `HalfOpenPrc` above
100 is clamped to 100, and in-range values are kept. -/
theorem C7_config_normalization (name : String) (cfg : CircuitBreakerConf)
    (h : name ≠ "") :
    ∃ b, new name cfg = .ok b ∧
      (cfg.FailureThreshold ≤ 0 → b.failureThreshold = 5) ∧
      (0 < cfg.FailureThreshold →
        b.failureThreshold = cfg.FailureThreshold) ∧
      (cfg.RecoveryTimeout ≤ 0 → b.recoveryTimeout = 30 * 1000000000) ∧
      (0 < cfg.RecoveryTimeout → b.recoveryTimeout = cfg.RecoveryTimeout) ∧
      (cfg.SuccessThreshold ≤ 0 → b.successThreshold = 3) ∧
      (0 < cfg.SuccessThreshold →
        b.successThreshold = cfg.SuccessThreshold) ∧
      (cfg.HalfOpenPrc ≤ 0 → b.halfOpenPrc = 20) ∧
      (100 < cfg.HalfOpenPrc → b.halfOpenPrc = 100) ∧
      (0 < cfg.HalfOpenPrc → cfg.HalfOpenPrc ≤ 100 →
        b.halfOpenPrc = cfg.HalfOpenPrc) := by
  refine ⟨_, new_ok_of_ne name cfg h, ?_, ?_, ?_, ?_, ?_, ?_, ?_, ?_, ?_⟩ <;>
      intro hc
  · simp [hc]
  · simp [not_le.mpr hc]
  · simp [hc, thirtySeconds]
  · simp [not_le.mpr hc, thirtySeconds]
  · simp [hc]
  · simp [not_le.mpr hc]
  · simp [hc]
  · have h0 : ¬cfg.HalfOpenPrc ≤ 0 := by omega
    simp [h0, hc]
  · intro hc2
    simp [not_le.mpr hc, not_lt.mpr hc2]

/-- The all-defaulted configuration with an out-of-range `HalfOpenPrc`. -/
def clampCfg : CircuitBreakerConf :=
  { FailureThreshold := 0
    RecoveryTimeout := 0
    SuccessThreshold := 0
    HalfOpenPrc := 150 }

/-- Witness for C7: `halfOpenPercent = 150` is clamped to 100 while the
other fields take their defaults. -/
theorem C7_config_normalization_witness :
    ((new "x" clampCfg).toOption.getD demoBreaker).failureThreshold = 5 ∧
    ((new "x" clampCfg).toOption.getD demoBreaker).recoveryTimeout =
      30 * 1000000000 ∧
    ((new "x" clampCfg).toOption.getD demoBreaker).successThreshold = 3 ∧
    ((new "x" clampCfg).toOption.getD demoBreaker).halfOpenPrc = 100 := by
  obtain ⟨b, hb, h1, h2, h3, h4, h5, h6, h7, h8, h9⟩ :=
    C7_config_normalization "x" clampCfg (by decide)
  have hb' : (new "x" clampCfg).toOption.getD demoBreaker = b := by
    rw [hb]; rfl
  refine ⟨?_, ?_, ?_, ?_⟩ <;> rw [hb']
  · exact h1 (by decide)
  · exact h3 (by decide)
  · exact h5 (by decide)
  · exact h8 (by decide)

/-- C8: for a name with no registered breaker, `AllowRequest` fails open
with `(true, notConfigured)` and leaves the registry untouched,
`ReportSuccess` and `ReportFailure` are no-ops, and
`GetCircuitBreakerState` answers "disabled". -/
theorem C8_unregistered (m : Registry) (name : String) (now r : Int)
    (h : Registry.lookup m name = none) :
    AllowRequest m name now r = (true, State.notConfigured, m) ∧
    ReportSuccess m name = m ∧
    ReportFailure m name now = m ∧
    GetCircuitBreakerState m name = "disabled" := by
  refine ⟨?_, ?_, ?_, ?_⟩ <;>
    simp [AllowRequest, ReportSuccess, ReportFailure, GetCircuitBreakerState,
          GetCircuitBreaker, h]

/-- Witness for C8 on a one-entry registry that does not contain the
queried name. -/
theorem C8_unregistered_witness :
    AllowRequest [("old", demoBreaker)] "other" 5 7 =
      (true, State.notConfigured, [("old", demoBreaker)]) ∧
    ReportSuccess [("old", demoBreaker)] "other" = [("old", demoBreaker)] ∧
    ReportFailure [("old", demoBreaker)] "other" 5 = [("old", demoBreaker)] ∧
    GetCircuitBreakerState [("old", demoBreaker)] "other" = "disabled" :=
  C8_unregistered [("old", demoBreaker)] "other" 5 7 (by rfl)

/-- C10: `allow()` never changes any counter, timestamp or configuration
field; the only field it can change is the state, and only from Open to
HalfOpen. -/
theorem C10_allow_frame (cb : circuitBreaker) (now r : Int) :
    ((allow cb now r).2.2.failureCount = cb.failureCount ∧
     (allow cb now r).2.2.successCount = cb.successCount ∧
     (allow cb now r).2.2.transaction = cb.transaction ∧
     (allow cb now r).2.2.lastFailureTime = cb.lastFailureTime ∧
     (allow cb now r).2.2.failureThreshold = cb.failureThreshold ∧
     (allow cb now r).2.2.recoveryTimeout = cb.recoveryTimeout ∧
     (allow cb now r).2.2.successThreshold = cb.successThreshold ∧
     (allow cb now r).2.2.halfOpenPrc = cb.halfOpenPrc ∧
     (allow cb now r).2.2.name = cb.name) ∧
    ((allow cb now r).2.2.state = cb.state ∨
      (cb.state = State.stateOpen ∧
        (allow cb now r).2.2.state = State.stateHalfOpen)) :=
  ⟨allow_fields cb now r, allow_state cb now r⟩

/-- C5: starting from any successfully constructed breaker, any finite
sequence of operations keeps the counters non-negative, the state in
{Closed, Open, HalfOpen}, and `halfOpenPrc` in [1,100]; moreover
`transaction` never decreases across any single further operation. -/
theorem C5_invariant_sequences (name : String) (cfg : CircuitBreakerConf)
    (b0 : circuitBreaker) (h : new name cfg = .ok b0) (ops : List Op) :
    (0 ≤ (runOps b0 ops).failureCount ∧
     0 ≤ (runOps b0 ops).successCount ∧
     (runOps b0 ops).state ≠ State.notConfigured ∧
     1 ≤ (runOps b0 ops).halfOpenPrc ∧
     (runOps b0 ops).halfOpenPrc ≤ 100) ∧
    ∀ op : Op,
      (runOps b0 ops).transaction ≤ (applyOp (runOps b0 ops) op).transaction :=
  ⟨inv_runOps b0 ops (new_ok_inv name cfg b0 h),
   fun op => transaction_mono (runOps b0 ops) op⟩

/-- Witness for C5: a short concrete run (one failure, one success, one
allow) on a freshly constructed breaker. -/
theorem C5_invariant_sequences_witness :
    0 ≤ (runOps demoBreaker [Op.failureOp 5, Op.successOp,
          Op.allowOp 6 7]).failureCount ∧
    (runOps demoBreaker [Op.failureOp 5, Op.successOp,
          Op.allowOp 6 7]).state ≠ State.notConfigured :=
  have h := C5_invariant_sequences "old" demoCfg demoBreaker (by rfl)
    [Op.failureOp 5, Op.successOp, Op.allowOp 6 7]
  ⟨h.1.1, h.1.2.2.1⟩

/-! Lemmas about the bulk-initialization fold. -/

theorem init_lookup_notMem (cfg : CircuitBreakerConf) :
    ∀ (servers : List String) (acc : Registry × List String) (name : String),
      name ∉ servers →
      Registry.lookup (servers.foldl (initStep cfg) acc).1 name =
        Registry.lookup acc.1 name := by
  intro servers
  induction servers with
  | nil => intro acc name _; rfl
  | cons s rest ih =>
    intro acc name h
    have hs : name ≠ s := fun he => h (he ▸ List.mem_cons_self s rest)
    have hr : name ∉ rest := fun hm => h (List.mem_cons_of_mem s hm)
    rw [List.foldl_cons, ih (initStep cfg acc s) name hr]
    cases hnew : new s cfg with
    | error e =>
      have he : (initStep cfg acc s).1 = acc.1 := by simp [initStep, hnew]
      rw [he]
    | ok cb =>
      have he : (initStep cfg acc s).1 = Registry.insert acc.1 s cb := by
        simp [initStep, hnew]
      rw [he]
      exact lookup_insert_ne acc.1 s cb name (Ne.symm hs)

theorem init_lookup_emptyKey (cfg : CircuitBreakerConf) :
    ∀ (servers : List String) (acc : Registry × List String),
      Registry.lookup (servers.foldl (initStep cfg) acc).1 "" =
        Registry.lookup acc.1 "" := by
  intro servers
  induction servers with
  | nil => intro acc; rfl
  | cons s rest ih =>
    intro acc
    rw [List.foldl_cons, ih (initStep cfg acc s)]
    by_cases hs : s = ""
    · subst hs
      have he : (initStep cfg acc "").1 = acc.1 := by
        simp [initStep, new_empty]
      rw [he]
    · have he : (initStep cfg acc s).1 =
          Registry.insert acc.1 s
            ((new s cfg).toOption.getD demoBreaker) := by
        simp [initStep, new_ok_of_ne s cfg hs, Except.toOption]
      rw [he]
      exact lookup_insert_ne acc.1 s _ "" hs

theorem init_lookup_mem (cfg : CircuitBreakerConf) :
    ∀ (servers : List String) (acc : Registry × List String)
      (srv : String) (b : circuitBreaker),
      srv ∈ servers → new srv cfg = .ok b →
      Registry.lookup (servers.foldl (initStep cfg) acc).1 srv = some b := by
  intro servers
  induction servers with
  | nil => intro acc srv b h _; exact absurd h (List.not_mem_nil srv)
  | cons s rest ih =>
    intro acc srv b h hnew
    rw [List.foldl_cons]
    by_cases hm : srv ∈ rest
    · exact ih (initStep cfg acc s) srv b hm hnew
    · have hs : srv = s := by
        rcases List.mem_cons.mp h with he | hm'
        · exact he
        · exact absurd hm' hm
      subst hs
      rw [init_lookup_notMem cfg rest (initStep cfg acc srv) srv hm]
      have he : (initStep cfg acc srv).1 = Registry.insert acc.1 srv b := by
        simp [initStep, hnew]
      rw [he]
      exact lookup_insert_self acc.1 srv b

theorem init_errs_length (cfg : CircuitBreakerConf) :
    ∀ (servers : List String) (acc : Registry × List String),
      (servers.foldl (initStep cfg) acc).2.length =
        acc.2.length + servers.count "" := by
  intro servers
  induction servers with
  | nil => intro acc; simp
  | cons s rest ih =>
    intro acc
    rw [List.foldl_cons, ih (initStep cfg acc s)]
    by_cases hs : s = ""
    · subst hs
      have he : (initStep cfg acc "").2 =
          acc.2 ++ ["circuit breaker name cannot be empty"] := by
        simp [initStep, new_empty]
      rw [he]
      simp [List.count_cons]
      omega
    · have he : (initStep cfg acc s).2 = acc.2 := by
        simp [initStep, new_ok_of_ne s cfg hs]
      rw [he]
      have hb : (("" : String) == s) = false :=
        beq_eq_false_iff_ne.mpr (Ne.symm hs)
      simp [List.count_cons, hb, hs]

/-- C1 as stated is false: `InitCircuitBreakers` merges into the existing
map, so a breaker registered before the call under a name that is not in
the argument list survives the call. -/
theorem C1_counterexample :
    Registry.lookup
      (InitCircuitBreakers [("old", demoBreaker)] ["new"] demoCfg).1 "old" =
      some demoBreaker := by
  rfl

/-- C1 (amended): `InitCircuitBreakers` registers a freshly constructed
breaker (shared config) under every valid name of the list, overwriting a
same-named entry, and keeps every previously registered breaker whose name
is not in the list: the registry is merged into, not replaced. -/
theorem C1_init_merges (m : Registry) (servers : List String)
    (cfg : CircuitBreakerConf) :
    (∀ srv ∈ servers, ∀ b, new srv cfg = .ok b →
      Registry.lookup (InitCircuitBreakers m servers cfg).1 srv = some b) ∧
    (∀ name, name ∉ servers →
      Registry.lookup (InitCircuitBreakers m servers cfg).1 name =
        Registry.lookup m name) := by
  constructor
  · intro srv hm b hb
    exact init_lookup_mem cfg servers (m, []) srv b hm hb
  · intro name hn
    exact init_lookup_notMem cfg servers (m, []) name hn

/-- Witness for the amended C1: the listed name "new" gets the freshly
constructed breaker. -/
theorem C1_init_merges_witness :
    Registry.lookup
      (InitCircuitBreakers [("old", demoBreaker)] ["new"] demoCfg).1 "new" =
      some demoBreakerNew :=
  (C1_init_merges [("old", demoBreaker)] ["new"] demoCfg).1 "new"
    (by simp) demoBreakerNew new_demo_new

/-- C9: bulk initialization aggregates construction errors without
aborting: the error list has exactly one entry per empty name, an empty
name adds no registry entry, and every non-empty name of the list ends up
registered. -/
theorem C9_error_aggregation (m : Registry) (servers : List String)
    (cfg : CircuitBreakerConf) :
    (InitCircuitBreakers m servers cfg).2.length = servers.count "" ∧
    (Registry.lookup m "" = none →
      Registry.lookup (InitCircuitBreakers m servers cfg).1 "" = none) ∧
    (∀ srv ∈ servers, srv ≠ "" →
      ∃ b, Registry.lookup (InitCircuitBreakers m servers cfg).1 srv =
        some b) := by
  refine ⟨?_, ?_, ?_⟩
  · have h := init_errs_length cfg servers (m, [])
    simpa using h
  · intro h
    have he := init_lookup_emptyKey cfg servers (m, [])
    rw [InitCircuitBreakers, he]
    exact h
  · intro srv hm hne
    exact ⟨_, init_lookup_mem cfg servers (m, []) srv _ hm
      (new_ok_of_ne srv cfg hne)⟩

/-- Witness for C9 at the spec's Scenario F: `["", "ok"]` yields exactly
one error and a registered breaker for "ok". -/
theorem C9_error_aggregation_witness :
    (InitCircuitBreakers ([] : Registry) ["", "ok"] demoCfg).2.length = 1 ∧
    Registry.lookup
      (InitCircuitBreakers ([] : Registry) ["", "ok"] demoCfg).1 "ok" ≠
      none := by
  have h := C9_error_aggregation ([] : Registry) ["", "ok"] demoCfg
  constructor
  · rw [h.1]; rfl
  · obtain ⟨b, hb⟩ := h.2.2 "ok" (by simp) (by decide)
    rw [hb]
    simp

end CircuitBreaker
